import Mathlib

/-!
Verification of the PDF Fusion merge engine and file-list operations.

The merge engine (`generateMergedPdf` in `services/pdfService.ts`) iterates an
ordered list of uploaded file records, copying the pages of PDF inputs and
placing each image input on a fresh A4 page; the UI layer (`App.tsx`) maintains
the ordered list (upload, drag-reorder, remove) and invokes the engine.

The underlying document-model library (pdf-lib) is out of scope for the
repository and is treated as a black box; it is modelled here semantically:
a file's byte buffer is represented by what it denotes (a list of PDF pages,
a raster image, or undecodable garbage), and the library operations
(`PDFDocument.load`, `embedPng`, `embedJpg`) succeed exactly on buffers that
denote their format. Page dimensions and draw coordinates are modelled in ℚ.
-/

namespace PdfFusion

/-- A page of a source PDF document: fixed dimensions and opaque drawable
content, preserved verbatim when the page is copied. -/
structure Page where
  width : ℚ
  height : ℚ
  content : Nat
deriving DecidableEq, Repr

/-- A raster image together with its natural dimensions, as reported by
`image.scale(1)` after embedding. -/
structure ImageData where
  width : ℚ
  height : ℚ
  data : Nat
deriving DecidableEq, Repr

/-- Modelled from the spec: the byte buffer of an uploaded file, represented
by what it denotes to the black-box document-model library (§1, §6): bytes
that parse as a PDF denote its page list, bytes that decode as PNG or JPEG
denote the raster image, and anything else is undecodable garbage. -/
inductive FileData where
  | pdfBytes (pages : List Page)
  | pngBytes (img : ImageData)
  | jpgBytes (img : ImageData)
  | garbage (raw : Nat)
deriving DecidableEq, Repr

/-- MIME type constant from `types.ts` (`FileType.PDF`). -/
def FileType.PDF : String := "application/pdf"

/-- MIME type constant from `types.ts` (`FileType.PNG`). -/
def FileType.PNG : String := "image/png"

/-- MIME type constant from `types.ts` (`FileType.JPG`). -/
def FileType.JPG : String := "image/jpeg"

/-- MIME type constant from `types.ts` (`FileType.JPEG`); the same string as
`FileType.JPG`. -/
def FileType.JPEG : String := "image/jpeg"

/-- An uploaded file record (`UploadedFile` in `types.ts`): id, underlying
file data, display name, declared MIME type, size, optional preview URL. -/
structure UploadedFile where
  id : String
  file : FileData
  name : String
  type : String
  size : Nat
  previewUrl : Option String
deriving DecidableEq, Repr

/-- Modelled from the spec: the error raised by the black-box library when
bytes fail to parse or embed as the requested format. The library receives
only the raw buffer, so its error carries no file name. -/
inductive LibError where
  | parseError
  | pngEmbedError
  | jpgEmbedError
deriving DecidableEq, Repr

/-- Modelled from the spec: `PDFDocument.load` parses a byte buffer into a
source document (its list of pages), failing on buffers that are not PDFs. -/
def PDFDocument.load : FileData → Except LibError (List Page)
  | FileData.pdfBytes ps => Except.ok ps
  | _ => Except.error LibError.parseError

/-- Modelled from the spec: `mergedPdf.embedPng` embeds PNG bytes into the
document's resource pool, returning the image with its natural dimensions;
it fails on buffers that are not PNGs. -/
def embedPng : FileData → Except LibError ImageData
  | FileData.pngBytes img => Except.ok img
  | _ => Except.error LibError.pngEmbedError

/-- Modelled from the spec: `mergedPdf.embedJpg`, analogous to `embedPng`. -/
def embedJpg : FileData → Except LibError ImageData
  | FileData.jpgBytes img => Except.ok img
  | _ => Except.error LibError.jpgEmbedError

/-- Width of `PageSizes.A4` (595.28 points). -/
def a4Width : ℚ := 59528 / 100

/-- Height of `PageSizes.A4` (841.89 points). -/
def a4Height : ℚ := 84189 / 100

/-- A page of the merged output document: either a page copied verbatim from
a source PDF, or a fresh page of the given size with one image drawn at
position `(x, y)` with display size `w × h`. -/
inductive OutPage where
  | copied (p : Page)
  | image (pageWidth pageHeight : ℚ) (img : ImageData) (x y w h : ℚ)
deriving DecidableEq, Repr

/-- The image branch of `generateMergedPdf` (pdfService.ts): add an A4 page,
scale the image to fit inside a 40-point margin without upscaling, and draw
it centered. -/
def imagePageFor (image : ImageData) : OutPage :=
  let width := a4Width
  let height := a4Height
  let margin : ℚ := 40
  let maxWidth := width - margin * 2
  let maxHeight := height - margin * 2
  let scaleWidth := maxWidth / image.width
  let scaleHeight := maxHeight / image.height
  let scale := min (min scaleWidth scaleHeight) 1
  let displayWidth := image.width * scale
  let displayHeight := image.height * scale
  let x := (width - displayWidth) / 2
  let y := (height - displayHeight) / 2
  OutPage.image width height image x y displayWidth displayHeight

/-- One iteration of the `for (const fileItem of files)` loop of
`generateMergedPdf`: PDF files have all their pages copied and appended in
source order; PNG/JPEG files are embedded and drawn on a fresh A4 page; any
other declared type falls through the `if`/`else if` chain and leaves the
document unchanged. -/
def processFile (mergedPdf : List OutPage) (fileItem : UploadedFile) :
    Except LibError (List OutPage) :=
  if fileItem.type = FileType.PDF then
    match PDFDocument.load fileItem.file with
    | Except.error e => Except.error e
    | Except.ok pdf => Except.ok (mergedPdf ++ pdf.map OutPage.copied)
  else if fileItem.type = FileType.PNG ∨ fileItem.type = FileType.JPG ∨
      fileItem.type = FileType.JPEG then
    match (if fileItem.type = FileType.PNG then embedPng fileItem.file
           else embedJpg fileItem.file) with
    | Except.error e => Except.error e
    | Except.ok image => Except.ok (mergedPdf ++ [imagePageFor image])
  else
    Except.ok mergedPdf

/-- The loop of `generateMergedPdf`, threading the accumulating merged
document; the first failing file aborts the whole loop. -/
def mergeLoop : List OutPage → List UploadedFile → Except LibError (List OutPage)
  | doc, [] => Except.ok doc
  | doc, f :: rest =>
    match processFile doc f with
    | Except.error e => Except.error e
    | Except.ok doc' => mergeLoop doc' rest

/-- `generateMergedPdf` (pdfService.ts): create an empty document, process
every file in list order, and return the resulting document (whose
serialization is the returned byte buffer). -/
def generateMergedPdf (files : List UploadedFile) : Except LibError (List OutPage) :=
  mergeLoop [] files

/-- Processing status of the App UI (`ProcessingStatus` in `types.ts`). -/
structure ProcessingStatus where
  isProcessing : Bool
  message : String
  error : Option String
deriving DecidableEq, Repr

/-- The state held by the `App` component: the ordered file list and the
processing status. -/
structure AppState where
  files : List UploadedFile
  status : ProcessingStatus
deriving DecidableEq, Repr

/-- The observable outcome of one `handleMerge` invocation: the resulting
component state, whether `generateMergedPdf` was invoked, and the document
passed to `downloadPdf` together with its filename (or `none` when nothing
was downloaded). -/
structure MergeOutcome where
  state : AppState
  invokedMerge : Bool
  downloaded : Option (List OutPage × String)
deriving DecidableEq, Repr

/-- Success message set by `handleMerge` (App.tsx). -/
def mergeDoneMessage : String := "¡Listo! Tu PDF se ha descargado."

/-- Error message set by `handleMerge` (App.tsx). -/
def mergeErrorMessage : String :=
  "Hubo un error al crear el PDF. Asegúrate de que los archivos no estén dañados."

/-- `handleMerge` (App.tsx): return immediately when the file list is empty;
otherwise run `generateMergedPdf` on the current list, download the result
under `fusion_documento_<timestamp>.pdf` and show the success status, or on
failure show the error status. The recorded status is the one visible when
the handler finishes (before the delayed success-message reset). -/
def handleMerge (s : AppState) (timestamp : Nat) : MergeOutcome :=
  if s.files.length = 0 then
    { state := s, invokedMerge := false, downloaded := none }
  else
    match generateMergedPdf s.files with
    | Except.ok doc =>
      { state :=
          { files := s.files,
            status :=
              { isProcessing := false, message := mergeDoneMessage, error := none } },
        invokedMerge := true,
        downloaded :=
          some (doc, "fusion_documento_" ++ toString timestamp ++ ".pdf") }
    | Except.error _ =>
      { state :=
          { files := s.files,
            status :=
              { isProcessing := false, message := "", error := some mergeErrorMessage } },
        invokedMerge := true,
        downloaded := none }

/-- A raw browser `File` as delivered by the file input: name, declared MIME
type, size and contents. -/
structure RawFile where
  name : String
  mime : String
  size : Nat
  data : FileData
deriving DecidableEq, Repr

/-- The record construction inside `handleFileUpload` (App.tsx): each raw
file becomes an `UploadedFile` carrying a generated id; the ids produced by
`crypto.randomUUID()` are supplied here as an explicit list, one per file. -/
def mkUploadedFiles (raws : List RawFile) (ids : List String) : List UploadedFile :=
  (raws.zip ids).map fun ri =>
    { id := ri.2,
      file := ri.1.data,
      name := ri.1.name,
      type := ri.1.mime,
      size := ri.1.size,
      previewUrl := none }

/-- `handleFileUpload` (App.tsx): append the newly uploaded records to the
existing list. -/
def handleFileUpload (prev : List UploadedFile) (raws : List RawFile)
    (ids : List String) : List UploadedFile :=
  prev ++ mkUploadedFiles raws ids

/-- Modelled from the spec: `arrayMove` of the drag-and-drop toolkit, an
external collaborator described in §9 as moving the element at index `i` to
index `j` while all other elements keep their relative order. Out-of-range
indices never arise from `handleDragEnd` and leave the list unchanged. -/
def arrayMove (l : List α) (i j : Nat) : List α :=
  match l[i]? with
  | none => l
  | some a => (l.eraseIdx i).insertIdx j a

/-- `handleDragEnd` (App.tsx): when a drag ends over a different item, move
the dragged record from its current index to the index of the item it was
dropped on; otherwise leave the list unchanged. -/
def handleDragEnd (items : List UploadedFile) (active : String)
    (over : Option String) : List UploadedFile :=
  match over with
  | none => items
  | some o =>
    if active ≠ o then
      arrayMove items (items.findIdx fun item => item.id = active)
        (items.findIdx fun item => item.id = o)
    else items

/-- `removeFile` (App.tsx): keep exactly the records whose id differs from
the given one. -/
def removeFile (prev : List UploadedFile) (i : String) : List UploadedFile :=
  prev.filter fun f => f.id ≠ i

/-- The ids of the records of a file list, in order. -/
def idsOf (l : List UploadedFile) : List String := l.map fun f => f.id

/-- The pages a byte buffer denotes when it parses as a PDF (and `[]`
otherwise). -/
def pdfPagesOf : FileData → List Page
  | FileData.pdfBytes ps => ps
  | _ => []

/-- Whether a byte buffer parses as a PDF. -/
def isPdfData : FileData → Bool
  | FileData.pdfBytes _ => true
  | _ => false

/-- Whether a byte buffer decodes as a PNG. -/
def isPngData : FileData → Bool
  | FileData.pngBytes _ => true
  | _ => false

/-- Whether a byte buffer decodes as a JPEG. -/
def isJpgData : FileData → Bool
  | FileData.jpgBytes _ => true
  | _ => false

/-- A file record whose processing step fails: its bytes do not parse or
embed as its declared type. -/
def fileFails (f : UploadedFile) : Prop :=
  (f.type = FileType.PDF ∧ isPdfData f.file = false) ∨
  (f.type = FileType.PNG ∧ isPngData f.file = false) ∨
  (f.type = FileType.JPEG ∧ isJpgData f.file = false)

instance (f : UploadedFile) : Decidable (fileFails f) := by
  unfold fileFails
  infer_instance

/-- Sample page used by concrete instantiations. -/
def pageP : Page := { width := 595, height := 842, content := 1 }

/-- Sample page used by concrete instantiations. -/
def pageQ : Page := { width := 595, height := 842, content := 2 }

/-- Sample page used by concrete instantiations. -/
def pageR : Page := { width := 200, height := 300, content := 3 }

/-- A sample valid two-page PDF upload. -/
def pdfFileA : UploadedFile :=
  { id := "id-A", file := FileData.pdfBytes [pageP, pageQ], name := "A.pdf",
    type := FileType.PDF, size := 1000, previewUrl := none }

/-- A sample valid one-page PDF upload. -/
def pdfFileB : UploadedFile :=
  { id := "id-B", file := FileData.pdfBytes [pageR], name := "B.pdf",
    type := FileType.PDF, size := 700, previewUrl := none }

/-- A sample valid one-page PDF upload. -/
def pdfFileC : UploadedFile :=
  { id := "id-C", file := FileData.pdfBytes [pageQ], name := "C.pdf",
    type := FileType.PDF, size := 600, previewUrl := none }

/-- The 1200 × 1600 sample image of the spec's concrete scenario. -/
def samplePng : ImageData := { width := 1200, height := 1600, data := 9 }

/-- A sample valid PNG upload. -/
def pngFile : UploadedFile :=
  { id := "id-P", file := FileData.pngBytes samplePng, name := "photo.png",
    type := FileType.PNG, size := 500, previewUrl := none }

/-- A sample upload whose declared type is supported by none of the merge
branches. -/
def textFile : UploadedFile :=
  { id := "id-T", file := FileData.garbage 0, name := "notes.txt",
    type := "text/plain", size := 5, previewUrl := none }

/-- A sample upload declared as PDF whose bytes do not parse. -/
def corruptA : UploadedFile :=
  { id := "id-X", file := FileData.garbage 7, name := "a.pdf",
    type := FileType.PDF, size := 10, previewUrl := none }

/-- A second corrupt PDF upload with the same bytes but a different name. -/
def corruptB : UploadedFile :=
  { id := "id-Y", file := FileData.garbage 7, name := "b.pdf",
    type := FileType.PDF, size := 10, previewUrl := none }

/-- A sample raw browser file for upload instantiations. -/
def rawPngFile : RawFile :=
  { name := "new.png", mime := FileType.PNG, size := 300,
    data := FileData.pngBytes samplePng }

/-! ### Helper lemmas about the merge loop -/

/-- Splitting the merge loop at a list concatenation. -/
theorem mergeLoop_append (xs ys : List UploadedFile) (doc : List OutPage) :
    mergeLoop doc (xs ++ ys) =
      match mergeLoop doc xs with
      | Except.ok d => mergeLoop d ys
      | Except.error e => Except.error e := by
  induction xs generalizing doc with
  | nil => simp [mergeLoop]
  | cons f rest ih =>
    simp only [List.cons_append, mergeLoop]
    cases processFile doc f with
    | error e => rfl
    | ok d => exact ih d

/-- Processing a PDF record appends its pages, copied in order. -/
theorem processFile_pdf (doc : List OutPage) (f : UploadedFile) (ps : List Page)
    (ht : f.type = FileType.PDF) (hf : f.file = FileData.pdfBytes ps) :
    processFile doc f = Except.ok (doc ++ ps.map OutPage.copied) := by
  simp [processFile, ht, hf, PDFDocument.load]

/-- Processing a record of unsupported declared type leaves the document
unchanged. -/
theorem processFile_skip (doc : List OutPage) (f : UploadedFile)
    (hpdf : f.type ≠ FileType.PDF) (hpng : f.type ≠ FileType.PNG)
    (hjpg : f.type ≠ FileType.JPEG) :
    processFile doc f = Except.ok doc := by
  have hjpg' : f.type ≠ FileType.JPG := hjpg
  simp [processFile, hpdf, hpng, hjpg, hjpg']

/-- Processing a record whose bytes do not decode as the declared type
fails, whatever the accumulated document. -/
theorem processFile_fails (doc : List OutPage) (f : UploadedFile)
    (hbad : fileFails f) : ∃ e, processFile doc f = Except.error e := by
  rcases hbad with ⟨ht, hd⟩ | ⟨ht, hd⟩ | ⟨ht, hd⟩
  · refine ⟨LibError.parseError, ?_⟩
    cases hf : f.file <;>
      simp_all [processFile, PDFDocument.load, isPdfData]
  · refine ⟨LibError.pngEmbedError, ?_⟩
    cases hf : f.file <;>
      simp_all [processFile, embedPng, isPngData, FileType.PNG, FileType.PDF]
  · refine ⟨LibError.jpgEmbedError, ?_⟩
    cases hf : f.file <;>
      simp_all [processFile, embedJpg, isJpgData, FileType.JPEG, FileType.JPG,
        FileType.PNG, FileType.PDF]

/-- A loop over files all of which are well-formed PDFs appends the
concatenation of their page lists, each copied in order. -/
theorem mergeLoop_all_pdfs (files : List UploadedFile) (doc : List OutPage)
    (h : ∀ f ∈ files, f.type = FileType.PDF ∧ ∃ ps, f.file = FileData.pdfBytes ps) :
    mergeLoop doc files =
      Except.ok (doc ++ (files.map fun f => (pdfPagesOf f.file).map OutPage.copied).flatten) := by
  induction files generalizing doc with
  | nil => simp [mergeLoop]
  | cons f rest ih =>
    obtain ⟨ht, ps, hps⟩ := h f (List.mem_cons_self f rest)
    have hstep := processFile_pdf doc f ps ht hps
    simp only [mergeLoop, hstep]
    rw [ih (doc ++ ps.map OutPage.copied) fun g hg => h g (List.mem_cons_of_mem f hg)]
    simp [hps, pdfPagesOf]

/-- A loop containing a record that fails to decode aborts with an error,
whatever the accumulated document. -/
theorem mergeLoop_fails (files : List UploadedFile) (f : UploadedFile)
    (hf : f ∈ files) (hbad : fileFails f) :
    ∀ doc, ∃ e, mergeLoop doc files = Except.error e := by
  induction files with
  | nil => cases hf
  | cons g rest ih =>
    intro doc
    rcases List.mem_cons.mp hf with rfl | hmem
    · obtain ⟨e, he⟩ := processFile_fails doc f hbad
      exact ⟨e, by simp [mergeLoop, he]⟩
    · cases hstep : processFile doc g with
      | error e => exact ⟨e, by simp [mergeLoop, hstep]⟩
      | ok d =>
        obtain ⟨e, he⟩ := ih hmem d
        exact ⟨e, by simp [mergeLoop, hstep, he]⟩

/-! ### Helper lemmas about the list operations -/

/-- Inserting at an index within bounds is, up to permutation, consing. -/
theorem insertIdx_perm_cons (a : α) : ∀ (n : Nat) (l : List α), n ≤ l.length →
    (l.insertIdx n a).Perm (a :: l)
  | 0, l, _ => by simp [List.insertIdx]
  | n + 1, [], h => by simp at h
  | n + 1, b :: t, h => by
    rw [List.insertIdx_succ_cons]
    exact ((insertIdx_perm_cons a n t (by simpa using h)).cons b).trans
      (List.Perm.swap a b t)

/-- A list is, up to permutation, its element at an index consed onto the
list with that index erased. -/
theorem perm_get_cons_eraseIdx : ∀ (l : List α) (i : Nat) (hi : i < l.length),
    l.Perm (l.get ⟨i, hi⟩ :: l.eraseIdx i)
  | [], i, hi => by simp at hi
  | b :: t, 0, _ => by simp
  | b :: t, n + 1, hi => by
    simp only [List.eraseIdx_cons_succ, List.get_cons_succ]
    exact ((perm_get_cons_eraseIdx t n (by simpa using hi)).cons b).trans
      (List.Perm.swap _ b _)

/-- Moving an element between in-range positions permutes the list. -/
theorem arrayMove_perm (l : List α) (i j : Nat) (hi : i < l.length)
    (hj : j + 1 ≤ l.length) : (arrayMove l i j).Perm l := by
  have hget : l[i]? = some (l.get ⟨i, hi⟩) := List.getElem?_eq_getElem hi
  unfold arrayMove
  rw [hget]
  have hlen : (l.eraseIdx i).length + 1 = l.length := List.length_eraseIdx_add_one hi
  exact (insertIdx_perm_cons _ j _ (by omega)).trans
    (perm_get_cons_eraseIdx l i hi).symm

/-- A drag whose endpoints are ids present in the list permutes the list. -/
theorem handleDragEnd_perm (items : List UploadedFile) (a : String)
    (over : Option String) (ha : a ∈ idsOf items)
    (ho : ∀ o, over = some o → o ∈ idsOf items) :
    (handleDragEnd items a over).Perm items := by
  match over with
  | none => simp [handleDragEnd]
  | some o =>
    by_cases hao : a ≠ o
    · have hidx : ∀ s : String, s ∈ idsOf items →
          items.findIdx (fun item => item.id = s) < items.length := by
        intro s hs
        apply List.findIdx_lt_length_of_exists
        obtain ⟨f, hf, hfs⟩ := List.mem_map.mp hs
        exact ⟨f, hf, by simp [hfs]⟩
      have hi := hidx a ha
      have hj := hidx o (ho o rfl)
      simp only [handleDragEnd, if_pos hao]
      exact arrayMove_perm _ _ _ hi (by omega)
    · simp [handleDragEnd, hao]

/-- The ids of freshly built upload records are exactly the supplied ids,
when one id is supplied per raw file. -/
theorem idsOf_mkUploadedFiles (raws : List RawFile) (ids : List String)
    (h : ids.length ≤ raws.length) : idsOf (mkUploadedFiles raws ids) = ids := by
  unfold idsOf mkUploadedFiles
  rw [List.map_map]
  exact List.map_snd_zip raws ids h

/-! ### Claim theorems -/

/-- C1: for every non-empty list of file records all declared as PDF and
whose bytes all parse as PDFs, `generateMergedPdf` succeeds with the
concatenation of the inputs' page sequences in list order, each input's
internal page order preserved (every page copied verbatim), and the output
page count is the sum of the inputs' page counts. -/
theorem generateMergedPdf_concat_pdf_pages (files : List UploadedFile)
    (hne : files ≠ [])
    (h : ∀ f ∈ files, f.type = FileType.PDF ∧ ∃ ps, f.file = FileData.pdfBytes ps) :
    generateMergedPdf files =
      Except.ok ((files.map fun f => (pdfPagesOf f.file).map OutPage.copied).flatten) ∧
    ∀ doc, generateMergedPdf files = Except.ok doc →
      doc.length = (files.map fun f => (pdfPagesOf f.file).length).sum := by
  have hmain : generateMergedPdf files =
      Except.ok ((files.map fun f => (pdfPagesOf f.file).map OutPage.copied).flatten) := by
    unfold generateMergedPdf
    rw [mergeLoop_all_pdfs files [] h]
    rfl
  refine ⟨hmain, fun doc hdoc => ?_⟩
  rw [hmain] at hdoc
  cases hdoc
  simp [List.length_flatten, List.map_map, Function.comp_def, List.length_map]

/-- Witness for C1: merging the concrete list [two-page A.pdf, one-page
B.pdf] yields the three copied pages in order. -/
theorem generateMergedPdf_concat_pdf_pages_witness :
    generateMergedPdf [pdfFileA, pdfFileB] =
      Except.ok ((([pdfFileA, pdfFileB]).map fun f =>
        (pdfPagesOf f.file).map OutPage.copied).flatten) ∧
    ∀ doc, generateMergedPdf [pdfFileA, pdfFileB] = Except.ok doc →
      doc.length = (([pdfFileA, pdfFileB]).map fun f => (pdfPagesOf f.file).length).sum :=
  generateMergedPdf_concat_pdf_pages [pdfFileA, pdfFileB]
    (by simp)
    (by
      intro f hf
      simp only [List.mem_cons, List.not_mem_nil, or_false] at hf
      rcases hf with rfl | rfl
      · exact ⟨rfl, [pageP, pageQ], rfl⟩
      · exact ⟨rfl, [pageR], rfl⟩)

/-- C3 corrected: `generateMergedPdf` applied to the empty list does not
fail; it succeeds with a zero-page document, refuting the claim that the
merge operation raises an `EmptyInputError` on empty input. -/
theorem generateMergedPdf_empty_ok : generateMergedPdf [] = Except.ok [] := rfl

/-- C3 amended: for the empty input list the UI-level merge handler returns
immediately — `generateMergedPdf` is not invoked and no byte buffer is
downloaded — while `generateMergedPdf` itself, if called on the empty list,
succeeds with a zero-page document rather than failing with an
`EmptyInputError`. -/
theorem empty_input_guarded_by_caller (status : ProcessingStatus) (ts : Nat) :
    (handleMerge { files := [], status := status } ts).invokedMerge = false ∧
    (handleMerge { files := [], status := status } ts).downloaded = none ∧
    generateMergedPdf [] = Except.ok [] :=
  ⟨rfl, rfl, rfl⟩

/-- C4 corrected: a record whose declared type is supported by no branch
(here `text/plain`) does not make the merge fail; the merge succeeds and the
record is silently skipped, refuting the claimed `UnsupportedTypeError`. -/
theorem unsupported_type_merge_succeeds :
    generateMergedPdf [textFile] = Except.ok [] := rfl

/-- C4 amended: a file record whose declared type is none of
application/pdf, image/png, image/jpeg is silently skipped when it reaches
the merge step: it contributes no pages and the merge result is exactly that
of the list without it. -/
theorem unsupported_type_silently_skipped (xs ys : List UploadedFile)
    (f : UploadedFile) (hpdf : f.type ≠ FileType.PDF)
    (hpng : f.type ≠ FileType.PNG) (hjpg : f.type ≠ FileType.JPEG) :
    generateMergedPdf (xs ++ f :: ys) = generateMergedPdf (xs ++ ys) := by
  unfold generateMergedPdf
  rw [mergeLoop_append, mergeLoop_append]
  cases mergeLoop [] xs with
  | error e => rfl
  | ok d =>
    show mergeLoop d (f :: ys) = mergeLoop d ys
    simp [mergeLoop, processFile_skip d f hpdf hpng hjpg]

/-- Witness for C4's amended claim: inserting the unsupported text file
after a valid PDF leaves the merge result unchanged. -/
theorem unsupported_type_silently_skipped_witness :
    generateMergedPdf ([pdfFileA] ++ textFile :: []) =
      generateMergedPdf ([pdfFileA] ++ []) :=
  unsupported_type_silently_skipped [pdfFileA] [] textFile
    (by decide) (by decide) (by decide)

/-- C5 corrected: two corrupt files with identical bytes but different names
produce the very same error value, so the surfaced error is not tagged with
the offending file's name (the engine re-raises the library error
untouched). -/
theorem merge_error_not_tagged_with_name :
    generateMergedPdf [corruptA] = Except.error LibError.parseError ∧
    generateMergedPdf [corruptB] = Except.error LibError.parseError ∧
    corruptA.name ≠ corruptB.name :=
  ⟨rfl, rfl, by decide⟩

/-- C5 amended: whenever some file's bytes fail to decode or embed as their
declared type, `generateMergedPdf` aborts the entire merge with an error and
no output document is produced; the error is the library's own and is not
tagged with the offending file's name. -/
theorem merge_aborts_on_undecodable_file (files : List UploadedFile)
    (f : UploadedFile) (hf : f ∈ files) (hbad : fileFails f) :
    ∃ e, generateMergedPdf files = Except.error e :=
  mergeLoop_fails files f hf hbad []

/-- Witness for C5's amended claim: a list holding a valid PDF followed by a
corrupt one aborts with an error. -/
theorem merge_aborts_on_undecodable_file_witness :
    ∃ e, generateMergedPdf [pdfFileA, corruptA] = Except.error e :=
  merge_aborts_on_undecodable_file [pdfFileA, corruptA] corruptA
    (List.mem_cons_of_mem pdfFileA (List.mem_cons_self corruptA []))
    (Or.inl ⟨rfl, rfl⟩)

/-- C6: for valid single-page PDF inputs A and B, merging [A, B] and
independently merging [B, A] yield page sequences that are exact reverses of
each other. -/
theorem merge_pair_order_reversal (fa fb : UploadedFile) (p q : Page)
    (hat : fa.type = FileType.PDF) (haf : fa.file = FileData.pdfBytes [p])
    (hbt : fb.type = FileType.PDF) (hbf : fb.file = FileData.pdfBytes [q]) :
    generateMergedPdf [fa, fb] = Except.ok [OutPage.copied p, OutPage.copied q] ∧
    generateMergedPdf [fb, fa] = Except.ok [OutPage.copied q, OutPage.copied p] ∧
    [OutPage.copied q, OutPage.copied p] =
      [OutPage.copied p, OutPage.copied q].reverse := by
  refine ⟨?_, ?_, rfl⟩ <;>
    simp [generateMergedPdf, mergeLoop, processFile, PDFDocument.load,
      hat, haf, hbt, hbf]

/-- Witness for C6: the concrete single-page inputs B.pdf and C.pdf. -/
theorem merge_pair_order_reversal_witness :
    generateMergedPdf [pdfFileB, pdfFileC] =
      Except.ok [OutPage.copied pageR, OutPage.copied pageQ] ∧
    generateMergedPdf [pdfFileC, pdfFileB] =
      Except.ok [OutPage.copied pageQ, OutPage.copied pageR] ∧
    [OutPage.copied pageQ, OutPage.copied pageR] =
      [OutPage.copied pageR, OutPage.copied pageQ].reverse :=
  merge_pair_order_reversal pdfFileB pdfFileC pageR pageQ rfl rfl rfl rfl

/-- C2: a valid single-image input (PNG or JPEG) with positive natural
dimensions produces exactly one page of the fixed A4 size; the image's
dimensions are both multiplied by the uniform scale factor
min(1, (pageWidth − 2·40)/imageWidth, (pageHeight − 2·40)/imageHeight), the
draw position is ((pageWidth − scaledWidth)/2, (pageHeight − scaledHeight)/2),
the scale never exceeds 1 (no upscaling) and the scaled image never exceeds
the printable area. -/
theorem generateMergedPdf_single_image (f : UploadedFile) (img : ImageData)
    (himg : (f.type = FileType.PNG ∧ f.file = FileData.pngBytes img) ∨
            (f.type = FileType.JPEG ∧ f.file = FileData.jpgBytes img))
    (hw : 0 < img.width) (hh : 0 < img.height) :
    ∃ s : ℚ,
      s = min 1 (min ((a4Width - 2 * 40) / img.width)
        ((a4Height - 2 * 40) / img.height)) ∧
      s ≤ 1 ∧
      img.width * s ≤ a4Width - 2 * 40 ∧
      img.height * s ≤ a4Height - 2 * 40 ∧
      generateMergedPdf [f] =
        Except.ok [OutPage.image a4Width a4Height img
          ((a4Width - img.width * s) / 2) ((a4Height - img.height * s) / 2)
          (img.width * s) (img.height * s)] := by
  refine ⟨min (min ((a4Width - 40 * 2) / img.width)
    ((a4Height - 40 * 2) / img.height)) 1, ?_, ?_, ?_, ?_, ?_⟩
  · rw [min_comm]
    norm_num
  · exact min_le_right _ _
  · have h1 : min (min ((a4Width - 40 * 2) / img.width)
        ((a4Height - 40 * 2) / img.height)) 1 ≤ (a4Width - 40 * 2) / img.width :=
      le_trans (min_le_left _ _) (min_le_left _ _)
    calc img.width * min (min ((a4Width - 40 * 2) / img.width)
          ((a4Height - 40 * 2) / img.height)) 1
        ≤ img.width * ((a4Width - 40 * 2) / img.width) :=
          mul_le_mul_of_nonneg_left h1 hw.le
      _ = a4Width - 40 * 2 := by field_simp
      _ = a4Width - 2 * 40 := by ring
  · have h1 : min (min ((a4Width - 40 * 2) / img.width)
        ((a4Height - 40 * 2) / img.height)) 1 ≤ (a4Height - 40 * 2) / img.height :=
      le_trans (min_le_left _ _) (min_le_right _ _)
    calc img.height * min (min ((a4Width - 40 * 2) / img.width)
          ((a4Height - 40 * 2) / img.height)) 1
        ≤ img.height * ((a4Height - 40 * 2) / img.height) :=
          mul_le_mul_of_nonneg_left h1 hh.le
      _ = a4Height - 40 * 2 := by field_simp
      _ = a4Height - 2 * 40 := by ring
  · rcases himg with ⟨ht, hf⟩ | ⟨ht, hf⟩ <;>
      simp [generateMergedPdf, mergeLoop, processFile, embedPng, embedJpg,
        imagePageFor, ht, hf, FileType.PDF, FileType.PNG, FileType.JPG,
        FileType.JPEG]

/-- Witness for C2: the spec's concrete 1200 × 1600 PNG scenario. -/
theorem generateMergedPdf_single_image_witness :
    ∃ s : ℚ,
      s = min 1 (min ((a4Width - 2 * 40) / samplePng.width)
        ((a4Height - 2 * 40) / samplePng.height)) ∧
      s ≤ 1 ∧
      samplePng.width * s ≤ a4Width - 2 * 40 ∧
      samplePng.height * s ≤ a4Height - 2 * 40 ∧
      generateMergedPdf [pngFile] =
        Except.ok [OutPage.image a4Width a4Height samplePng
          ((a4Width - samplePng.width * s) / 2)
          ((a4Height - samplePng.height * s) / 2)
          (samplePng.width * s) (samplePng.height * s)] :=
  generateMergedPdf_single_image pngFile samplePng (Or.inl ⟨rfl, rfl⟩)
    (by norm_num [samplePng]) (by norm_num [samplePng])

/-- C7: each of the three file-list operations — appending freshly uploaded
records (whose generated ids are new and pairwise distinct), drag-reordering
between positions of ids present in the list, and removal — preserves the
invariant that no two records share an id. -/
theorem listOps_preserve_nodup_ids :
    (∀ (prev : List UploadedFile) (raws : List RawFile) (ids : List String),
        ids.length = raws.length → (idsOf prev).Nodup → ids.Nodup →
        (∀ i ∈ ids, i ∉ idsOf prev) →
        (idsOf (handleFileUpload prev raws ids)).Nodup) ∧
    (∀ (items : List UploadedFile) (a : String) (over : Option String),
        a ∈ idsOf items → (∀ o, over = some o → o ∈ idsOf items) →
        (idsOf items).Nodup → (idsOf (handleDragEnd items a over)).Nodup) ∧
    (∀ (l : List UploadedFile) (i : String),
        (idsOf l).Nodup → (idsOf (removeFile l i)).Nodup) := by
  refine ⟨?_, ?_, ?_⟩
  · intro prev raws ids hlen hprev hids hdisj
    unfold handleFileUpload
    have hsplit : idsOf (prev ++ mkUploadedFiles raws ids) =
        idsOf prev ++ idsOf (mkUploadedFiles raws ids) := by
      simp [idsOf]
    rw [hsplit, idsOf_mkUploadedFiles raws ids (le_of_eq hlen), List.nodup_append]
    exact ⟨hprev, hids, fun x hx hx' => hdisj x hx' hx⟩
  · intro items a over ha ho hnodup
    have hperm := handleDragEnd_perm items a over ha ho
    have hmap : (idsOf (handleDragEnd items a over)).Perm (idsOf items) :=
      List.Perm.map (fun f : UploadedFile => f.id) hperm
    exact hmap.nodup_iff.mpr hnodup
  · intro l i hnodup
    have hsub : (removeFile l i).Sublist l := List.filter_sublist l
    have hmap : (idsOf (removeFile l i)).Sublist (idsOf l) :=
      List.Sublist.map (fun f : UploadedFile => f.id) hsub
    exact hnodup.sublist hmap

/-- Witness for C7: concrete upload, drag and removal instances on lists
with distinct ids. -/
theorem listOps_preserve_nodup_ids_witness :
    (idsOf (handleFileUpload [pdfFileA] [rawPngFile] [pngFile.id])).Nodup ∧
    (idsOf (handleDragEnd [pdfFileA, pdfFileB] pdfFileA.id
      (some pdfFileB.id))).Nodup ∧
    (idsOf (removeFile [pdfFileA, pdfFileB] pdfFileA.id)).Nodup :=
  ⟨listOps_preserve_nodup_ids.1 [pdfFileA] [rawPngFile] [pngFile.id]
      (by decide) (by decide) (by decide) (by decide),
   listOps_preserve_nodup_ids.2.1 [pdfFileA, pdfFileB] pdfFileA.id
      (some pdfFileB.id) (by decide)
      (by intro o ho; simp only [Option.some.injEq] at ho; subst ho; decide)
      (by decide),
   listOps_preserve_nodup_ids.2.2 [pdfFileA, pdfFileB] pdfFileA.id (by decide)⟩

/-- C8: the merge leaves the input file records and their order unchanged,
whether it succeeds or fails: the file list held by the caller after
`handleMerge` (which passes the list to the pure `generateMergedPdf`) is the
list it started with. -/
theorem handleMerge_preserves_file_list (s : AppState) (ts : Nat) :
    (handleMerge s ts).state.files = s.files := by
  unfold handleMerge
  by_cases h : s.files.length = 0
  · rw [if_pos h]
  · rw [if_neg h]
    cases generateMergedPdf s.files <;> rfl

/-- C9: `removeFile` keeps the result a sublist of the input (preserving
contents and relative order), retains exactly the records whose id differs
from the given id, and leaves the list unchanged when no record has that
id. -/
theorem removeFile_spec (l : List UploadedFile) (i : String) :
    (removeFile l i).Sublist l ∧
    (∀ f, f ∈ removeFile l i ↔ f ∈ l ∧ f.id ≠ i) ∧
    ((∀ f ∈ l, f.id ≠ i) → removeFile l i = l) := by
  refine ⟨List.filter_sublist l, fun f => ?_, fun h => ?_⟩
  · simp [removeFile, List.mem_filter]
  · exact List.filter_eq_self.mpr fun f hf => by simpa using h f hf

/-- Witness for C9: removing an id present in a concrete two-element list,
and removing an id absent from a concrete one-element list. -/
theorem removeFile_spec_witness :
    (∀ f, f ∈ removeFile [pdfFileA, pdfFileB] pdfFileB.id ↔
      f ∈ [pdfFileA, pdfFileB] ∧ f.id ≠ pdfFileB.id) ∧
    removeFile [pdfFileA] pdfFileB.id = [pdfFileA] :=
  ⟨(removeFile_spec [pdfFileA, pdfFileB] pdfFileB.id).2.1,
   (removeFile_spec [pdfFileA] pdfFileB.id).2.2 (by decide)⟩

/-- C10: with an empty file list, `handleMerge` returns immediately:
`generateMergedPdf` is not invoked, nothing is downloaded, and both the file
list and the processing status are unchanged, so the engine's unguarded
empty-list behavior is unreachable from the UI. -/
theorem handleMerge_empty_noop (status : ProcessingStatus) (ts : Nat) :
    handleMerge { files := [], status := status } ts =
      { state := { files := [], status := status }, invokedMerge := false,
        downloaded := none } := rfl

end PdfFusion
